import Mathlib

/-!
Shallow embedding of the ginga AstroImage module (AstroImage.py) and of the
canvas notification mixin (ginga/canvas/CanvasMixin.py), together with proofs
about the header/keyword operations, the WCS-rebuild discipline, the spherical
geometry routines and the mosaic engine.

Conventions used throughout:
  * Python dicts of FITS keywords are modelled as insertion-ordered association
    lists with unique keys (`hget` / `hset` give the dict read/update
    semantics: update replaces in place, insert appends at the end).
  * Python floats are modelled as exact numbers: the spherical-geometry
    functions over `Real`, the black-box WCS adapter values over `Rat`.
  * A raised exception is modelled as `Except.error`; the Python object is
    unchanged when an operation raises, which state-passing renders as "no
    new state is produced".
-/

deriving instance DecidableEq for Except

namespace Ginga

/-- Model of CPython `str.upper` restricted to ASCII strings (FITS keywords
are ASCII): each lowercase letter is mapped to its uppercase form. -/
def upChar (c : Char) : Char :=
  if 'a' ≤ c ∧ c ≤ 'z' then Char.ofNat (c.toNat - 32) else c

/-- Model of Python `kwd.upper()` for ASCII keyword strings. -/
def pyUpper (s : String) : String := String.mk (s.data.map upChar)

/-- Model of Python 2 `int(round(x))`: round half away from zero. -/
def pyround (q : ℚ) : Int :=
  if q < 0 then -(Int.floor (1 / 2 - q)) else Int.floor (q + 1 / 2)

/-- Association-list read, the semantics of a Python dict lookup `h[k]`
(`none` models a raised `KeyError`). -/
def hget {α : Type} (h : List (String × α)) (k : String) : Option α :=
  match h with
  | [] => none
  | (k1, v1) :: rest => if k1 = k then some v1 else hget rest k

/-- Association-list write, the semantics of a Python dict update
`h[k] = v`: replace in place if the key exists, append otherwise. -/
def hset {α : Type} (h : List (String × α)) (k : String) (v : α) :
    List (String × α) :=
  match h with
  | [] => [(k, v)]
  | (k1, v1) :: rest =>
    if k1 = k then (k1, v) :: rest else (k1, v1) :: hset rest k v

/-- Scalar FITS header values (numbers or strings). -/
inductive HVal where
  | num : Int → HVal
  | str : String → HVal
  deriving DecidableEq

/-- FITS header: ordered mapping from keyword to scalar value. -/
abbrev Header := List (String × HVal)

/-- The metadata table of an AstroImage: the reserved nested entry
`metadata['header']` (absent when no header has been stored yet) plus the
remaining scalar entries. -/
structure Meta where
  header : Option Header
  scalars : List (String × HVal)
  deriving DecidableEq

/-- State of an AstroImage relevant to the keyword/WCS claims: its metadata
and the header from which `self.wcs` was last (re)built by
`wcs.load_header` (`none` when the adapter holds no header yet).  The WCS
adapter is a black box built deterministically from a header, so the header
snapshot it was last given fully determines it. -/
structure AImg where
  meta : Meta
  wcsHeader : Option Header
  deriving DecidableEq

/-- AstroImage.get_header: returns `metadata['header']`; when absent it
either creates an empty header in the metadata (`create = true`) or raises
`KeyError('header')` (`create = false`).  The returned image carries the
side effect of the creation. -/
def get_header (img : AImg) (create : Bool) :
    Except String (Header × AImg) :=
  match img.meta.header with
  | some hdr => Except.ok (hdr, img)
  | none =>
    if create then
      Except.ok ([], { img with meta := { img.meta with header := some [] } })
    else Except.error "header"

/-- AstroImage.get_keyword (no default supplied): looks the keyword up, as
given, in the header; `none` models the raised `KeyError(kwd)`.  The
`get_header()` call inside uses `create = true`, so it may create an empty
header as a side effect (second component). -/
def get_keyword (img : AImg) (kwd : String) : Option HVal × AImg :=
  match get_header img true with
  | Except.ok (kwds, img1) => (hget kwds kwd, img1)
  | Except.error _ => (none, img)

/-- AstroImage.set_keyword: fetch the header (honouring `create`), uppercase
the keyword, and, when `create` is false, read the previous value (raising
`KeyError` when the uppercased keyword is absent) before writing.  Note
that `self.wcs` is not touched. -/
def set_keyword (img : AImg) (kwd : String) (value : HVal)
    (create : Bool) : Except String AImg :=
  match get_header img create with
  | Except.error e => Except.error e
  | Except.ok (kwds, img1) =>
    let kwdU := pyUpper kwd
    if create then
      Except.ok { img1 with meta := { img1.meta with header := some (hset kwds kwdU value) } }
    else
      match hget kwds kwdU with
      | some _ =>
        Except.ok { img1 with meta := { img1.meta with header := some (hset kwds kwdU value) } }
      | none => Except.error kwdU

/-- AstroImage.update_keywords: upcase every keyword of the incoming dict
into the header, then rebuild the wcs object from the updated header. -/
def update_keywords (img : AImg) (keyDict : List (String × HVal)) : AImg :=
  match get_header img true with
  | Except.ok (hdr, img1) =>
    let hdr2 := keyDict.foldl (fun h p => hset h (pyUpper p.1) p.2) hdr
    { img1 with meta := { img1.meta with header := some hdr2 }, wcsHeader := some hdr2 }
  | Except.error _ => img

/-- AstroImage.update_metadata: write the incoming scalar entries into the
metadata table, then refresh the WCS from the (possibly just-created)
current header. -/
def update_metadata (img : AImg) (keyDict : List (String × HVal)) : AImg :=
  let img1 : AImg :=
    { img with meta := { img.meta with
        scalars := keyDict.foldl (fun s p => hset s p.1 p.2) img.meta.scalars } }
  match get_header img1 true with
  | Except.ok (hdr, img2) => { img2 with wcsHeader := some hdr }
  | Except.error _ => img1

/-- The freshness invariant of the spec: the wcs object was built from
exactly the header currently stored in the metadata. -/
def wcsCurrent (img : AImg) : Prop := img.wcsHeader = img.meta.header

instance (img : AImg) : Decidable (wcsCurrent img) := by
  unfold wcsCurrent; infer_instance

/-- Identity of a canvas object; Python `!=` between canvases compares
object identity, modelled by a numeric id. -/
structure CanvasId where
  ident : Nat
  deriving DecidableEq

/-- CanvasMixin.subcanvas_updated_cb: invoked when a subcanvas signals
`modified`; returns the list of `modified` events this canvas re-emits in
turn (via `make_callback_nochildren`).  The guard against self-referential
loops re-emits only when the originating canvas is not the canvas itself. -/
def subcanvas_updated_cb (self canvas : CanvasId) (whence : Nat) :
    List (CanvasId × String × Nat) :=
  if canvas ≠ self then [(self, "modified", whence)] else []

/-- Pixel array: row-major list of rows (numpy 2-D array). -/
abbrev Mat := List (List Int)

/-- Height (number of rows) of a pixel array, numpy `shape[0]`. -/
def matH (m : Mat) : Nat := m.length

/-- Width of a pixel array, numpy `shape[1]` (rows are uniform in a numpy
array; the first row is representative). -/
def matW (m : Mat) : Nat := (m.headD []).length

/-- Rectangularity: all rows have width `w` (a numpy array invariant). -/
def rect (m : Mat) (w : Nat) : Prop := ∀ r ∈ m, r.length = w

instance (m : Mat) (w : Nat) : Decidable (rect m w) :=
  List.decidableBAll _ m

/-- numpy.zeros((h, w)). -/
def zeros (h w : Nat) : Mat := List.replicate h (List.replicate w 0)

/-- numpy.fliplr: reverse each row (horizontal flip). -/
def fliplr (m : Mat) : Mat := m.map List.reverse

/-- numpy.flipud: reverse the row order (vertical flip). -/
def flipud (m : Mat) : Mat := m.reverse

/-- Read the h×w sub-block of `m` whose top-left corner is row `y0`,
column `x0` (numpy `m[y0:y0+h, x0:x0+w]` for an in-bounds block). -/
def getBlock (m : Mat) (y0 x0 ht wd : Nat) : Mat :=
  ((m.drop y0).take ht).map (fun r => (r.drop x0).take wd)

/-- Overwrite `seg` into `row` starting at column `x0` (in-bounds case of
numpy row-slice assignment). -/
def setRowSeg (row : List Int) (x0 : Nat) (seg : List Int) : List Int :=
  row.take x0 ++ seg ++ row.drop (x0 + seg.length)

/-- Overwrite block `blk` into `m` with its top-left corner at row `y0`,
column `x0` (in-bounds case of numpy 2-D slice assignment). -/
def setBlock (m : Mat) (y0 x0 : Nat) (blk : Mat) : Mat :=
  m.take y0 ++
    List.zipWith (fun row seg => setRowSeg row x0 seg)
      ((m.drop y0).take blk.length) blk ++
    m.drop (y0 + blk.length)

/-- Model of the numpy slice assignment `m[y0:y0+ht, x0:x0+wd] = blk` (with
`ht, wd` the dimensions of `blk`): when the destination block lies fully
inside `m` the copy happens; otherwise the clipped destination slice has a
shape different from `blk` and numpy raises a broadcast `ValueError`,
modelled as `Except.error`. -/
def placeBlock (m : Mat) (y0 x0 : Int) (blk : Mat) : Except String Mat :=
  if 0 ≤ y0 ∧ 0 ≤ x0 ∧ y0.toNat + matH blk ≤ matH m ∧
      x0.toNat + matW blk ≤ matW m then
    Except.ok (setBlock m y0.toNat x0.toNat blk)
  else Except.error "could not broadcast input array"

/-- An AstroImage as the mosaic engine sees it: a name, a pixel array, its
FITS header (keyword to numeric value, as used for CRPIX lookups), the rest
of its metadata (opaque, copied verbatim, represented by a token), and its
black-box WCS adapter `pixtoradec` / `radectopix` (exact-valued model of
the floating-point adapter). -/
structure WImage where
  name : String
  data : Mat
  header : List (String × ℚ)
  metaRest : Nat
  pixtoradec : Int → Int → ℚ × ℚ
  radectopix : ℚ → ℚ → ℚ × ℚ

/-- Image width as the engine computes it (`get_size().0`). -/
def wWidth (img : WImage) : Nat := matW img.data

/-- Image height as the engine computes it (`get_size().1`). -/
def wHeight (img : WImage) : Nat := matH img.data

/-- Project one pixel corner of `image` through its own WCS into sky
coordinates and then through the base image's WCS back into (rounded) base
pixel coordinates — the inner two lines of the mosaic corner loops. -/
def projCorner (image0 image : WImage) (c : Int × Int) : Int × Int :=
  let rd := image.pixtoradec c.1 c.2
  let p := image0.radectopix rd.1 rd.2
  (pyround p.1, pyround p.2)

/-- Running pixel bounds of the projected source corners. -/
structure Bounds where
  xmin : Int
  ymin : Int
  xmax : Int
  ymax : Int
  deriving DecidableEq

/-- One corner of the mosaic1/mosaic scan loop: project the corner, append
the placement record to `idxs` when the corner is pixel (0,0), and fold the
projected position into the running min/max bounds. -/
def cornerStep (image0 image : WImage) (wd ht : Int)
    (acc : Bounds × List (Int × Int × Int × Int)) (c : Int × Int) :
    Bounds × List (Int × Int × Int × Int) :=
  let q := projCorner image0 image c
  let idxs :=
    if c.1 = 0 ∧ c.2 = 0 then acc.2 ++ [(q.1, q.2, q.1 + wd, q.2 + ht)]
    else acc.2
  ({ xmin := min acc.1.xmin q.1, ymin := min acc.1.ymin q.2,
     xmax := max acc.1.xmax q.1, ymax := max acc.1.ymax q.2 }, idxs)

/-- Per-image part of the scan loop: the four pixel corners
(0,0), (wd-1,0), (wd-1,ht-1), (0,ht-1) in source order. -/
def mosaic1_scanStep (image0 : WImage)
    (acc : Bounds × List (Int × Int × Int × Int)) (image : WImage) :
    Bounds × List (Int × Int × Int × Int) :=
  let wd := (wWidth image : Int)
  let ht := (wHeight image : Int)
  [((0 : Int), (0 : Int)), (wd - 1, 0), (wd - 1, ht - 1), (0, ht - 1)].foldl
    (cornerStep image0 image wd ht) acc

/-- First loop of AstroImage.mosaic1: running min/max bounds (starting from
0,0,0,0) and the per-image placement records. -/
def mosaic1_scan (image0 : WImage) (imagelist : List WImage) :
    Bounds × List (Int × Int × Int × Int) :=
  imagelist.foldl (mosaic1_scanStep image0)
    ({ xmin := 0, ymin := 0, xmax := 0, ymax := 0 }, [])

/-- Metadata chosen by the second mosaic1 loop: the chosen image's header
and opaque metadata token, and its CRPIX1/CRPIX2 values already shifted by
the offsets. -/
abbrev Chosen := (List (String × ℚ)) × Nat × ℚ × ℚ

/-- Second loop of AstroImage.mosaic1: drop each image at its placement
record (shifted by the offsets), popping records off the front of `idxs`.
Since the loop counter `cnt` is initialised to 0 and never incremented, the
`cnt == 0` branch runs on every iteration, so the chosen metadata and
CRPIX values are overwritten by each image in turn and the last image's
survive.  A failed slice assignment or a missing CRPIX keyword raises out
of the loop. -/
def mosaic1_loop2 (xoff yoff : Int) :
    List WImage → List (Int × Int × Int × Int) → Mat → Option Chosen →
    Except String (Mat × Option Chosen)
  | [], _, nd, chosen => Except.ok (nd, chosen)
  | image :: rest, idxs, nd, chosen =>
    match idxs with
    | [] => Except.error "pop from empty list"
    | (xi, yi, _, _) :: idxrest =>
      match placeBlock nd (yi + yoff) (xi + xoff) image.data with
      | Except.error e => Except.error e
      | Except.ok nd1 =>
        match hget image.header "CRPIX1", hget image.header "CRPIX2" with
        | some c1, some c2 =>
          mosaic1_loop2 xoff yoff rest idxrest nd1
            (some (image.header, image.metaRest, c1 + (xoff : ℚ), c2 + (yoff : ℚ)))
        | none, _ => Except.error "CRPIX1"
        | _, none => Except.error "CRPIX2"

/-- Result of mosaic1: the composite pixel array and the new image's
metadata — the header of the chosen source image with CRPIX1/CRPIX2
overwritten by `update_keywords`, plus that image's opaque metadata
token. -/
structure MosaicResult where
  data : Mat
  header : List (String × ℚ)
  metaRest : Nat
  deriving DecidableEq

/-- AstroImage.mosaic1: scan all source corners for the bounding box,
allocate a zero-filled canvas of size (xmax-xmin+1, ymax-ymin+1), compute
the placement offsets (abs(min(0,xmin)), abs(min(0,ymin))), place every
image, and build the composite image from the chosen metadata with the
CRPIX reference-pixel keywords updated by the offsets. -/
def mosaic1 (imagelist : List WImage) : Except String MosaicResult :=
  match imagelist with
  | [] => Except.error "list index out of range"
  | image0 :: _ =>
    let sc := mosaic1_scan image0 imagelist
    let width : Int := sc.1.xmax - sc.1.xmin + 1
    let height : Int := sc.1.ymax - sc.1.ymin + 1
    let xoff : Int := (min 0 sc.1.xmin).natAbs
    let yoff : Int := (min 0 sc.1.ymin).natAbs
    let newdata := zeros height.toNat width.toNat
    match mosaic1_loop2 xoff yoff imagelist sc.2 newdata none with
    | Except.error e => Except.error e
    | Except.ok (_, none) => Except.error "crpix1"
    | Except.ok (nd, some (hdr, mrest, c1, c2)) =>
      Except.ok
        { data := nd,
          header := hset (hset hdr "CRPIX1" c1) "CRPIX2" c2,
          metaRest := mrest }

/-- Orientation normalisation of one source image inside
AstroImage.mosaic_inline: compare the destination's corner-to-corner sky
ordering (`ra_l`, `dec_l`) against the source's; on a mismatch flip the
source array along that axis (fliplr for RA, flipud for Dec) and use the
far corner's coordinate on that axis as the placement origin.  Returns the
oriented array and the (ra, dec) of the origin corner. -/
def orientData (ra_l dec_l : Bool) (image : WImage) : Mat × ℚ × ℚ :=
  let wd := (wWidth image : Int)
  let ht := (wHeight image : Int)
  let p2 := image.pixtoradec 0 0
  let p3 := image.pixtoradec (wd - 1) (ht - 1)
  let dr :=
    if ra_l ≠ decide (p2.1 < p3.1) then (fliplr image.data, p3.1)
    else (image.data, p2.1)
  let dd :=
    if dec_l ≠ decide (p2.2 < p3.2) then (flipud dr.1, p3.2)
    else (dr.1, p2.2)
  (dd.1, dr.2, dd.2)

/-- Per-image body of the mosaic_inline loop: orient the piece, convert its
origin corner to destination pixels (rounded), and attempt the slice copy;
a failure is caught, logged (image name and cause appended to the error
log) and skipped, leaving the canvas as it was. -/
def mosaic_inline_step (self : WImage) (ra_l dec_l : Bool)
    (acc : Mat × List String) (image : WImage) : Mat × List String :=
  let od := orientData ra_l dec_l image
  let xy := self.radectopix od.2.1 od.2.2
  match placeBlock acc.1 (pyround xy.2) (pyround xy.1) od.1 with
  | Except.ok nd => (nd, acc.2)
  | Except.error e => (acc.1, acc.2 ++ [image.name ++ ": " ++ e])

/-- AstroImage.mosaic_inline: determine the destination's orientation from
its corner sky coordinates, drop every image of the list in place (best
effort, per-image failures logged), and finally emit the `modified`
callback exactly once.  Returns the updated canvas image, the error log and
the number of `modified` notifications emitted by the call. -/
def mosaic_inline (self : WImage) (imagelist : List WImage) :
    WImage × List String × Nat :=
  let p0 := self.pixtoradec 0 0
  let p1 := self.pixtoradec ((wWidth self : Int) - 1) ((wHeight self : Int) - 1)
  let ra_l := decide (p0.1 < p1.1)
  let dec_l := decide (p0.2 < p1.2)
  let res := imagelist.foldl (mosaic_inline_step self ra_l dec_l) (self.data, [])
  ({ self with data := res.1 }, res.2, 1)

noncomputable section RealGeometry

open Real

/-- math.radians. -/
noncomputable def radians (x : ℝ) : ℝ := x * (Real.pi / 180)

/-- math.degrees. -/
noncomputable def degrees (x : ℝ) : ℝ := x * (180 / Real.pi)

/-- Modelled from the spec: `wcs.arcsecToDeg` of the (external) wcs module,
used by `deltaStarsRaDecDeg1` to convert the dispos distance "from arcmin
to degrees" after the caller multiplies arcmin by 60 to get arcsec. -/
noncomputable def arcsecToDeg (arcsec : ℝ) : ℝ := arcsec / 3600

/-- AstroImage.dispos (exact-real model of the float code): distance and
position angle of (dra, decd) from (dra0, decd0), inputs in decimal
degrees, returning `(phi in degrees East of North, dist in arcmin)`.
Follows the source line by line: spherical law of cosines, the position
angle guarded by `dist > 4e-7`, the `cospa` clamp, the `sinpa < 0`
reflection to `360 - phi`, and the final pole overrides on `decd0`. -/
noncomputable def dispos (dra0 decd0 dra decd : ℝ) : ℝ × ℝ :=
  let radian : ℝ := 180 / Real.pi
  let alf := dra / radian
  let alf0 := dra0 / radian
  let del1 := decd / radian
  let del0 := decd0 / radian
  let sd0 := Real.sin del0
  let sd := Real.sin del1
  let cd0 := Real.cos del0
  let cd := Real.cos del1
  let cosda := Real.cos (alf - alf0)
  let cosd := sd0 * sd + cd0 * cd * cosda
  let dist := Real.arccos cosd
  let phi :=
    if 0.0000004 < dist then
      let sind := Real.sin dist
      let cospa0 := (sd * cd0 - cd * sd0 * cosda) / sind
      let cospa := if 1 < |cospa0| then cospa0 / |cospa0| else cospa0
      let sinpa := cd * Real.sin (alf - alf0) / sind
      let phi1 := Real.arccos cospa * radian
      if sinpa < 0 then 360 - phi1 else phi1
    else 0
  let dist1 := dist * radian * 60
  let phi2 := if decd0 = 90 then (180 : ℝ) else if decd0 = -90 then 0 else phi
  (phi2, dist1)

/-- AstroImage.deltaStarsRaDecDeg1: angular separation in degrees obtained
from the dispos distance (arcmin × 60 → arcsec → degrees).  This is the
canonical implementation (`deltaStarsRaDecDeg = deltaStarsRaDecDeg1`). -/
noncomputable def deltaStarsRaDecDeg1 (ra1 dec1 ra2 dec2 : ℝ) : ℝ :=
  arcsecToDeg ((dispos ra1 dec1 ra2 dec2).2 * 60)

/-- AstroImage.deltaStarsRaDecDeg2, translated exactly as written: the
co-latitude arguments are formed as `90.0 - dec_rad`, i.e. the degree
literal 90.0 combined with a value already converted to radians. -/
noncomputable def deltaStarsRaDecDeg2 (ra1 dec1 ra2 dec2 : ℝ) : ℝ :=
  let ra1_rad := radians ra1
  let dec1_rad := radians dec1
  let ra2_rad := radians ra2
  let dec2_rad := radians dec2
  let sep_rad := Real.arccos
    (Real.cos (90 - dec1_rad) * Real.cos (90 - dec2_rad) +
     Real.sin (90 - dec1_rad) * Real.sin (90 - dec2_rad) *
       Real.cos (ra1_rad - ra2_rad))
  degrees sep_rad

end RealGeometry

/-! ### Concrete instances used in the theorems below -/

/-- An image whose wcs is current: the wcs was built from the one-entry
header the metadata holds. -/
def c2img : AImg :=
  { meta := { header := some [("CRPIX1", HVal.num 1)], scalars := [] },
    wcsHeader := some [("CRPIX1", HVal.num 1)] }

/-- An image with an empty (but present) header. -/
def c3img : AImg :=
  { meta := { header := some [], scalars := [] }, wcsHeader := some [] }

/-- An image whose header holds NAXIS1 only. -/
def c10img : AImg :=
  { meta := { header := some [("NAXIS1", HVal.num 100)], scalars := [] },
    wcsHeader := some [("NAXIS1", HVal.num 100)] }

/-- Monotone extension of running bounds: `a` extends `b` (smaller minima,
larger maxima). -/
def bmono (a b : Bounds) : Prop :=
  a.xmin ≤ b.xmin ∧ a.ymin ≤ b.ymin ∧ b.xmax ≤ a.xmax ∧ b.ymax ≤ a.ymax

/-- Base image of the two-image mosaic example: 10×10 pixels of value 1,
identity WCS (sky coordinate = pixel coordinate). -/
def exA : WImage :=
  { name := "a", data := List.replicate 10 (List.replicate 10 1),
    header := [("CRPIX1", 5), ("CRPIX2", 5)], metaRest := 1,
    pixtoradec := fun x y => ((x : ℚ), (y : ℚ)),
    radectopix := fun ra dec => (ra, dec) }

/-- Second image of the two-image mosaic example: 10×10 pixels of value 2,
offset exactly one image-width along RA relative to the base, no
rotation. -/
def exB : WImage :=
  { name := "b", data := List.replicate 10 (List.replicate 10 2),
    header := [("CRPIX1", -5), ("CRPIX2", 7)], metaRest := 2,
    pixtoradec := fun x y => ((x : ℚ) - 10, (y : ℚ)),
    radectopix := fun ra dec => (ra, dec) }

/-- Expected composite of `mosaic1 [exA, exB]`: a 10×20 canvas holding
exB's block in columns 0–9 (exB projects to x = -10, shifted by the offset
10) and exA's block in columns 10–19; the metadata and CRPIX values stem
from the last image (exB), CRPIX shifted by the offsets (10, 0). -/
def c6res : MosaicResult :=
  { data := List.replicate 10 (List.replicate 10 2 ++ List.replicate 10 1),
    header := [("CRPIX1", -5 + 10), ("CRPIX2", 7 + 0)], metaRest := 2 }

/-- First image of the gap example: 2×2 block of 1s, identity WCS. -/
def gA : WImage :=
  { name := "g1", data := [[1, 1], [1, 1]],
    header := [("CRPIX1", 0), ("CRPIX2", 0)], metaRest := 3,
    pixtoradec := fun x y => ((x : ℚ), (y : ℚ)),
    radectopix := fun ra dec => (ra, dec) }

/-- Second image of the gap example: 2×2 block of 2s, two image-widths
east, leaving a zero-filled gap in the middle of the canvas. -/
def gB : WImage :=
  { name := "g2", data := [[2, 2], [2, 2]],
    header := [("CRPIX1", 1), ("CRPIX2", 1)], metaRest := 4,
    pixtoradec := fun x y => ((x : ℚ) + 4, (y : ℚ)),
    radectopix := fun ra dec => (ra, dec) }

/-- Destination canvas of the best-effort placement example: 4×8 zeros,
identity WCS. -/
def cS8 : WImage :=
  { name := "canvas", data := List.replicate 4 (List.replicate 8 0),
    header := [], metaRest := 0,
    pixtoradec := fun x y => ((x : ℚ), (y : ℚ)),
    radectopix := fun ra dec => (ra, dec) }

/-- First (well-placed) image of the best-effort example. -/
def c8a : WImage :=
  { name := "a", data := [[1, 1], [1, 1]], header := [], metaRest := 0,
    pixtoradec := fun x y => ((x : ℚ), (y : ℚ)),
    radectopix := fun ra dec => (ra, dec) }

/-- Malformed image of the best-effort example: its projected origin
(x = 100) lies outside the 4×8 canvas, so its placement fails. -/
def c8b : WImage :=
  { name := "b", data := [[9, 9], [9, 9]], header := [], metaRest := 0,
    pixtoradec := fun x y => ((x : ℚ) + 100, (y : ℚ)),
    radectopix := fun ra dec => (ra, dec) }

/-- Last (well-placed) image of the best-effort example. -/
def c8c : WImage :=
  { name := "c", data := [[3, 3], [3, 3]], header := [], metaRest := 0,
    pixtoradec := fun x y => ((x : ℚ) + 4, (y : ℚ)),
    radectopix := fun ra dec => (ra, dec) }

/-- Expected canvas of the best-effort example: c8a's block at columns 0–1,
c8c's block at columns 4–5, the failed c8b leaving everything else
untouched. -/
def c8mat : Mat :=
  [[1, 1, 0, 0, 3, 3, 0, 0], [1, 1, 0, 0, 3, 3, 0, 0],
   [0, 0, 0, 0, 0, 0, 0, 0], [0, 0, 0, 0, 0, 0, 0, 0]]

/-- Destination canvas of the mirrored-placement example: 3×4 zeros,
identity WCS. -/
def cSelfM : WImage :=
  { name := "dst", data := List.replicate 3 (List.replicate 4 0),
    header := [], metaRest := 0,
    pixtoradec := fun x y => ((x : ℚ), (y : ℚ)),
    radectopix := fun ra dec => (ra, dec) }

/-- Mirrored source image: 2×3 pixel block whose WCS runs east-to-west
(ra = 2 - x), i.e. mirrored along the RA axis relative to the
destination. -/
def cImgM : WImage :=
  { name := "m", data := [[1, 2, 3], [4, 5, 6]], header := [], metaRest := 0,
    pixtoradec := fun x y => ((2 : ℚ) - x, (y : ℚ)),
    radectopix := fun ra dec => (ra, dec) }

end Ginga

namespace Ginga

/-! ### Helper lemmas -/

theorem hget_hset_self {α : Type} (h : List (String × α)) (k : String) (v : α) :
    hget (hset h k v) k = some v := by
  induction h with
  | nil => simp [hset, hget]
  | cons p rest ih =>
    obtain ⟨k1, v1⟩ := p
    by_cases hp : k1 = k
    · subst hp; simp [hset, hget]
    · simp [hset, hget, hp, ih]

/-! ### Matrix block lemmas -/

theorem setRowSeg_crop (r s : List Int) (x0 w : Nat)
    (hr : x0 + w ≤ r.length) (hs : s.length = w) :
    ((setRowSeg r x0 s).drop x0).take w = s := by
  unfold setRowSeg
  rw [List.append_assoc, List.drop_left' (by rw [List.length_take]; omega),
      List.take_left' hs]

theorem setRowSeg_length (r s : List Int) (x0 : Nat)
    (h : x0 + s.length ≤ r.length) :
    (setRowSeg r x0 s).length = r.length := by
  unfold setRowSeg
  simp only [List.length_append, List.length_take, List.length_drop]
  omega

theorem zipWith_setRow_map_crop (x0 w : Nat) (rows blk : Mat)
    (hrow : ∀ r ∈ rows, x0 + w ≤ r.length) (hblk : ∀ b ∈ blk, b.length = w)
    (hlen : blk.length ≤ rows.length) :
    (List.zipWith (fun row seg => setRowSeg row x0 seg) rows blk).map
      (fun r => (r.drop x0).take w) = blk := by
  induction blk generalizing rows with
  | nil => simp
  | cons b bs ih =>
    cases rows with
    | nil => simp at hlen
    | cons r rs =>
      simp only [List.zipWith_cons_cons, List.map_cons]
      rw [setRowSeg_crop r b x0 w (hrow r (List.mem_cons_self r rs))
            (hblk b (List.mem_cons_self b bs)),
          ih rs (fun x hx => hrow x (List.mem_cons_of_mem r hx))
            (fun x hx => hblk x (List.mem_cons_of_mem b hx))
            (by simpa using hlen)]

theorem getBlock_setBlock (m blk : Mat) (y0 x0 w wM : Nat)
    (hm : rect m wM) (hx : x0 + w ≤ wM) (hy : y0 + blk.length ≤ m.length)
    (hb : rect blk w) :
    getBlock (setBlock m y0 x0 blk) y0 x0 blk.length w = blk := by
  unfold getBlock setBlock
  rw [List.append_assoc, List.drop_left' (by rw [List.length_take]; omega),
      List.take_left'
        (by
          rw [List.length_zipWith]
          simp only [List.length_take, List.length_drop]
          omega)]
  exact zipWith_setRow_map_crop x0 w _ blk
    (fun r hr => by
      have hrm : r ∈ m := List.mem_of_mem_drop (List.mem_of_mem_take hr)
      rw [hm r hrm]; exact hx)
    hb
    (by simp only [List.length_take, List.length_drop]; omega)

theorem mem_zipWith_setRow {rows blk : Mat} {x0 : Nat} {r : List Int}
    (h : r ∈ List.zipWith (fun row seg => setRowSeg row x0 seg) rows blk) :
    ∃ a ∈ rows, ∃ b ∈ blk, r = setRowSeg a x0 b := by
  induction rows generalizing blk with
  | nil => simp at h
  | cons a as ih =>
    cases blk with
    | nil => simp at h
    | cons b bs =>
      simp only [List.zipWith_cons_cons, List.mem_cons] at h
      rcases h with h | h
      · exact ⟨a, List.mem_cons_self a as, b, List.mem_cons_self b bs, h⟩
      · obtain ⟨a1, ha1, b1, hb1, hr⟩ := ih h
        exact ⟨a1, List.mem_cons_of_mem a ha1, b1, List.mem_cons_of_mem b hb1, hr⟩

theorem setBlock_length (m blk : Mat) (y0 x0 : Nat)
    (h : y0 + blk.length ≤ m.length) :
    (setBlock m y0 x0 blk).length = m.length := by
  unfold setBlock
  simp only [List.length_append, List.length_take, List.length_drop,
    List.length_zipWith]
  omega

theorem rect_setBlock (m blk : Mat) (y0 x0 w : Nat)
    (hm : rect m w) (hb : rect blk (matW blk)) (hx : x0 + matW blk ≤ w) :
    rect (setBlock m y0 x0 blk) w := by
  intro r hr
  unfold setBlock at hr
  rw [List.append_assoc, List.mem_append, List.mem_append] at hr
  rcases hr with h1 | h2 | h3
  · exact hm r (List.mem_of_mem_take h1)
  · obtain ⟨a, ha, b, hbmem, hrab⟩ := mem_zipWith_setRow h2
    have haw : a.length = w :=
      hm a (List.mem_of_mem_drop (List.mem_of_mem_take ha))
    have hbw : b.length = matW blk := hb b hbmem
    rw [hrab, setRowSeg_length a b x0 (by omega)]
    exact haw
  · exact hm r (List.mem_of_mem_drop h3)

theorem headD_mem {m : Mat} (h : m ≠ []) : m.headD [] ∈ m := by
  cases m with
  | nil => exact absurd rfl h
  | cons a l => exact List.mem_cons_self a l

theorem rect_matW {m : Mat} {w : Nat} (hm : rect m w) (hne : m ≠ []) :
    matW m = w := hm _ (headD_mem hne)

theorem placeBlock_ok_shape (m blk m1 : Mat) (y0 x0 : Int) (w : Nat)
    (hm : rect m w) (hne : m ≠ []) (hb : rect blk (matW blk))
    (h : placeBlock m y0 x0 blk = Except.ok m1) :
    m1.length = m.length ∧ rect m1 w := by
  unfold placeBlock at h
  split_ifs at h with hfit
  · obtain ⟨hy0, hx0, hyfit, hxfit⟩ := hfit
    have hmw : matW m = w := rect_matW hm hne
    have hm1 : m1 = setBlock m y0.toNat x0.toNat blk := by
      simpa using h.symm
    subst hm1
    constructor
    · exact setBlock_length m blk y0.toNat x0.toNat (by
        simpa [matH] using hyfit)
    · exact rect_setBlock m blk y0.toNat x0.toNat w hm hb (by omega)

theorem zeros_length (h w : Nat) : (zeros h w).length = h := by
  simp [zeros]

theorem rect_zeros (h w : Nat) : rect (zeros h w) w := by
  intro r hr
  unfold zeros at hr
  rw [List.eq_of_mem_replicate hr]
  simp

/-! ### Mosaic scan bounds -/

theorem bmono_rfl (a : Bounds) : bmono a a := by
  unfold bmono
  omega

theorem bmono_trans {a b c : Bounds} (h1 : bmono a b) (h2 : bmono b c) :
    bmono a c := by
  unfold bmono at h1 h2 ⊢
  omega

theorem cornerStep_bmono (image0 image : WImage) (wd ht : Int)
    (acc : Bounds × List (Int × Int × Int × Int)) (c : Int × Int) :
    bmono (cornerStep image0 image wd ht acc c).1 acc.1 := by
  unfold cornerStep bmono
  simp only
  refine ⟨min_le_left _ _, min_le_left _ _, le_max_left _ _, le_max_left _ _⟩

theorem foldl_cornerStep_bmono (image0 image : WImage) (wd ht : Int)
    (cs : List (Int × Int)) (acc : Bounds × List (Int × Int × Int × Int)) :
    bmono (cs.foldl (cornerStep image0 image wd ht) acc).1 acc.1 := by
  induction cs generalizing acc with
  | nil => exact bmono_rfl _
  | cons c cs ih =>
    rw [List.foldl_cons]
    exact bmono_trans (ih _) (cornerStep_bmono image0 image wd ht acc c)

theorem scanStep_bmono (image0 : WImage)
    (acc : Bounds × List (Int × Int × Int × Int)) (image : WImage) :
    bmono (mosaic1_scanStep image0 acc image).1 acc.1 := by
  unfold mosaic1_scanStep
  exact foldl_cornerStep_bmono image0 image _ _ _ acc

theorem mosaic1_scan_bounds (image0 : WImage) (l : List WImage) :
    (mosaic1_scan image0 l).1.xmin ≤ 0 ∧ (mosaic1_scan image0 l).1.ymin ≤ 0 ∧
    0 ≤ (mosaic1_scan image0 l).1.xmax ∧ 0 ≤ (mosaic1_scan image0 l).1.ymax := by
  have key : ∀ (acc : Bounds × List (Int × Int × Int × Int)),
      bmono (l.foldl (mosaic1_scanStep image0) acc).1 acc.1 := by
    induction l with
    | nil => intro acc; exact bmono_rfl _
    | cons im l ih =>
      intro acc
      rw [List.foldl_cons]
      exact bmono_trans (ih _) (scanStep_bmono image0 acc im)
  have h := key ({ xmin := 0, ymin := 0, xmax := 0, ymax := 0 }, [])
  unfold bmono at h
  exact ⟨h.1, h.2.1, h.2.2.1, h.2.2.2⟩

theorem mosaic1_loop2_shape (xoff yoff : Int) (il : List WImage) :
    ∀ (idxs : List (Int × Int × Int × Int)) (nd : Mat) (ch : Option Chosen)
      (out : Mat × Option Chosen) (w : Nat),
      rect nd w → nd ≠ [] →
      (∀ img ∈ il, rect img.data (matW img.data)) →
      mosaic1_loop2 xoff yoff il idxs nd ch = Except.ok out →
      out.1.length = nd.length ∧ rect out.1 w := by
  induction il with
  | nil =>
    intro idxs nd ch out w hrect hne _ h
    simp only [mosaic1_loop2] at h
    obtain rfl : (nd, ch) = out := by simpa using h
    exact ⟨rfl, hrect⟩
  | cons image rest ih =>
    intro idxs nd ch out w hrect hne hi h
    simp only [mosaic1_loop2] at h
    cases idxs with
    | nil => simp at h
    | cons idx idxrest =>
      obtain ⟨xi, yi, xj, yj⟩ := idx
      simp only at h
      cases hpb : placeBlock nd (yi + yoff) (xi + xoff) image.data with
      | error e => rw [hpb] at h; simp at h
      | ok nd1 =>
        rw [hpb] at h
        simp only at h
        have hsh := placeBlock_ok_shape nd image.data nd1 (yi + yoff)
          (xi + xoff) w hrect hne (hi image (List.mem_cons_self _ _)) hpb
        cases hc1 : hget image.header "CRPIX1" with
        | none => rw [hc1] at h; simp at h
        | some c1 =>
          cases hc2 : hget image.header "CRPIX2" with
          | none => rw [hc1, hc2] at h; simp at h
          | some c2 =>
            rw [hc1, hc2] at h
            have hne1 : nd1 ≠ [] :=
              List.ne_nil_of_length_pos (hsh.1 ▸ List.length_pos.mpr hne)
            have hrec := ih idxrest nd1 _ out w hsh.2 hne1
              (fun im hm => hi im (List.mem_cons_of_mem _ hm)) h
            exact ⟨hrec.1.trans hsh.1, hrec.2⟩

theorem mosaic1_exAB : mosaic1 [exA, exB] = Except.ok c6res := by
  norm_num +decide [mosaic1, mosaic1_scan, mosaic1_scanStep, cornerStep,
    projCorner, mosaic1_loop2, placeBlock, setBlock, setRowSeg, zeros, pyround,
    exA, exB, c6res, wWidth, wHeight, matH, matW, hget, hset, List.replicate,
    Int.toNat_ofNat]

theorem mosaic1_gap :
    mosaic1 [gA, gB] = Except.ok
      { data := [[1, 1, 0, 0, 2, 2], [1, 1, 0, 0, 2, 2]],
        header := [("CRPIX1", 1), ("CRPIX2", 1)], metaRest := 4 } := by
  norm_num +decide [mosaic1, mosaic1_scan, mosaic1_scanStep, cornerStep,
    projCorner, mosaic1_loop2, placeBlock, setBlock, setRowSeg, zeros, pyround,
    gA, gB, wWidth, wHeight, matH, matW, hget, hset, List.replicate,
    Int.toNat_ofNat]

theorem matH_fliplr (m : Mat) : matH (fliplr m) = matH m := by
  simp [fliplr, matH]

theorem matW_fliplr (m : Mat) : matW (fliplr m) = matW m := by
  cases m <;> simp [fliplr, matW]

theorem rect_fliplr {m : Mat} {w : Nat} (h : rect m w) : rect (fliplr m) w := by
  intro r hr
  simp only [fliplr, List.mem_map] at hr
  obtain ⟨a, ha, rfl⟩ := hr
  simpa using h a ha

theorem matH_flipud (m : Mat) : matH (flipud m) = matH m := by
  simp [flipud, matH]

theorem rect_flipud {m : Mat} {w : Nat} (h : rect m w) : rect (flipud m) w := by
  intro r hr
  exact h r (List.mem_reverse.1 hr)

theorem flipud_ne_nil {m : Mat} (h : m ≠ []) : flipud m ≠ [] := by
  simpa [flipud] using h

theorem fliplr_ne_nil {m : Mat} (h : m ≠ []) : fliplr m ≠ [] := by
  simpa [fliplr] using h

theorem matW_flipud {m : Mat} {w : Nat} (h : rect m w) (hne : m ≠ []) :
    matW (flipud m) = matW m := by
  rw [rect_matW h hne, rect_matW (rect_flipud h) (flipud_ne_nil hne)]

theorem placeBlock_ok_of_fit (m blk : Mat) (y0 x0 : Int)
    (h1 : 0 ≤ y0) (h2 : 0 ≤ x0) (h3 : y0.toNat + matH blk ≤ matH m)
    (h4 : x0.toNat + matW blk ≤ matW m) :
    placeBlock m y0 x0 blk = Except.ok (setBlock m y0.toNat x0.toNat blk) := by
  unfold placeBlock
  rw [if_pos ⟨h1, h2, h3, h4⟩]

/-! ### Claim theorems about the mosaic engine -/

/-- C6: full mosaic construction.  First part: for every image list, when
`mosaic1` succeeds the composite canvas has exactly
(xmax-xmin+1, ymax-ymin+1) pixels, the bounds being the running min/max of
the rounded projected corner coordinates computed by the scan loop.
Second part: for the two same-size 10×10 images `exA`/`exB` offset exactly
one image-width along RA with no rotation, the canvas is 10 rows × 20
columns, both pixel blocks appear exactly (exB's block at the offset-
shifted origin), and the reference-pixel keywords CRPIX1/CRPIX2 are
recomputed by adding the computed offsets (10, 0).  Third part: on a
two-image example with a gap, the allocated canvas is zero-filled where no
source pixels land. -/
theorem mosaic_full_construction :
    (∀ (l : List WImage) (i0 : WImage) (r : MosaicResult),
        l.head? = some i0 →
        (∀ img ∈ l, rect img.data (matW img.data)) →
        mosaic1 l = Except.ok r →
        r.data.length =
          ((mosaic1_scan i0 l).1.ymax - (mosaic1_scan i0 l).1.ymin + 1).toNat ∧
        rect r.data
          ((mosaic1_scan i0 l).1.xmax - (mosaic1_scan i0 l).1.xmin + 1).toNat) ∧
    mosaic1 [exA, exB] = Except.ok c6res ∧
    c6res.data.length = 10 ∧
    rect c6res.data 20 ∧
    getBlock c6res.data 0 10 10 10 = exA.data ∧
    getBlock c6res.data 0 0 10 10 = exB.data ∧
    hget c6res.header "CRPIX1" = some (-5 + 10) ∧
    hget c6res.header "CRPIX2" = some (7 + 0) ∧
    mosaic1 [gA, gB] = Except.ok
      { data := [[1, 1, 0, 0, 2, 2], [1, 1, 0, 0, 2, 2]],
        header := [("CRPIX1", 1), ("CRPIX2", 1)], metaRest := 4 } := by
  refine ⟨?_, mosaic1_exAB, by norm_num [c6res, List.replicate],
    by
      intro r hr
      have hr2 : r ∈ List.replicate 10
          (List.replicate 10 2 ++ List.replicate 10 (1 : Int)) := by
        simpa [c6res] using hr
      rw [List.eq_of_mem_replicate hr2]
      simp,
    by norm_num +decide [getBlock, c6res, exA, List.replicate],
    by norm_num +decide [getBlock, c6res, exB, List.replicate],
    by norm_num +decide [c6res, hget],
    by norm_num +decide [c6res, hget],
    mosaic1_gap⟩
  · intro l i0 r h0 hrect hok
    cases l with
    | nil => simp [mosaic1] at hok
    | cons im0 rest =>
      obtain rfl : im0 = i0 := by simpa using h0
      simp only [mosaic1] at hok
      set sc := mosaic1_scan im0 (im0 :: rest) with hsc
      split at hok
      · simp at hok
      · simp at hok
      · rename_i nd hdr mrest c1 c2 heq
        have hb := mosaic1_scan_bounds im0 (im0 :: rest)
        rw [← hsc] at hb
        have hshape := mosaic1_loop2_shape
          (((min 0 sc.1.xmin).natAbs : Int)) (((min 0 sc.1.ymin).natAbs : Int))
          (im0 :: rest) sc.2
          (zeros (sc.1.ymax - sc.1.ymin + 1).toNat
            (sc.1.xmax - sc.1.xmin + 1).toNat) none
          (nd, some (hdr, mrest, c1, c2)) (sc.1.xmax - sc.1.xmin + 1).toNat
          (rect_zeros _ _)
          (List.ne_nil_of_length_pos (by rw [zeros_length]; omega))
          hrect heq
        have h1 : nd.length = (sc.1.ymax - sc.1.ymin + 1).toNat := by
          have := hshape.1
          rwa [zeros_length] at this
        have h2 : rect nd ((sc.1.xmax - sc.1.xmin + 1).toNat) := hshape.2
        simp only [Except.ok.injEq] at hok
        rw [← hok]
        exact ⟨h1, h2⟩

/-- C6 witness: the general dimension statement applied at the concrete
two-image example. -/
theorem mosaic_full_construction_witness :
    c6res.data.length =
      ((mosaic1_scan exA [exA, exB]).1.ymax -
        (mosaic1_scan exA [exA, exB]).1.ymin + 1).toNat ∧
    rect c6res.data
      ((mosaic1_scan exA [exA, exB]).1.xmax -
        (mosaic1_scan exA [exA, exB]).1.xmin + 1).toNat :=
  mosaic_full_construction.1 [exA, exB] exA c6res rfl (by decide) mosaic1_exAB

/-- C4: the composite's metadata does not come from the first (base) image:
because the `cnt` guard in mosaic1 never advances, the metadata and the
CRPIX reference values are taken from the last image of the list.  On
[exA, exB] the composite carries exB's metadata token (2, not exA's 1) and
CRPIX1 = exB's CRPIX1 + xoff = -5 + 10, which differs from exA's
CRPIX1 + xoff = 5 + 10 — refuting the claim that all metadata other than
the reference-pixel keywords is copied verbatim from the first image. -/
theorem mosaic_metadata_from_last_not_first :
    (mosaic1 [exA, exB]).map (fun r => r.metaRest) = Except.ok exB.metaRest ∧
    exB.metaRest ≠ exA.metaRest ∧
    (mosaic1 [exA, exB]).map (fun r => hget r.header "CRPIX1") =
      Except.ok (some (-5 + 10)) ∧
    hget exA.header "CRPIX1" = some 5 ∧
    ((-5 : ℚ) + 10 ≠ 5 + 10) := by
  rw [mosaic1_exAB]
  refine ⟨?_, ?_, ?_, ?_, ?_⟩ <;>
    norm_num +decide [Except.map, c6res, exA, exB, hget]

/-- C7: inline placement orientation handling.  First part: the
orientation step flips the source array along exactly the axes whose
corner-to-corner sky-coordinate ordering disagrees with the destination's
(`ra_l`/`dec_l`), horizontally (fliplr) for an RA mismatch and vertically
(flipud) for a Dec mismatch, and the placement origin is the sky
coordinate, per axis, of the far corner when that axis was flipped and of
the near corner otherwise.  Second part: the block written into the canvas
at the destination-pixel conversion of that origin equals the oriented
(axis-reversed) array pixel for pixel. -/
theorem mosaic_inline_orientation :
    (∀ (ra_l dec_l : Bool) (image : WImage),
      orientData ra_l dec_l image =
        ((if dec_l ≠ decide ((image.pixtoradec 0 0).2 <
              (image.pixtoradec ((wWidth image : Int) - 1)
                ((wHeight image : Int) - 1)).2)
          then flipud
            (if ra_l ≠ decide ((image.pixtoradec 0 0).1 <
                  (image.pixtoradec ((wWidth image : Int) - 1)
                    ((wHeight image : Int) - 1)).1)
             then fliplr image.data else image.data)
          else
            (if ra_l ≠ decide ((image.pixtoradec 0 0).1 <
                  (image.pixtoradec ((wWidth image : Int) - 1)
                    ((wHeight image : Int) - 1)).1)
             then fliplr image.data else image.data)),
         (if ra_l ≠ decide ((image.pixtoradec 0 0).1 <
               (image.pixtoradec ((wWidth image : Int) - 1)
                 ((wHeight image : Int) - 1)).1)
          then (image.pixtoradec ((wWidth image : Int) - 1)
                 ((wHeight image : Int) - 1)).1
          else (image.pixtoradec 0 0).1),
         (if dec_l ≠ decide ((image.pixtoradec 0 0).2 <
               (image.pixtoradec ((wWidth image : Int) - 1)
                 ((wHeight image : Int) - 1)).2)
          then (image.pixtoradec ((wWidth image : Int) - 1)
                 ((wHeight image : Int) - 1)).2
          else (image.pixtoradec 0 0).2))) ∧
    (∀ (self image : WImage) (od : Mat) (ra dec : ℚ) (x0 y0 : Int),
      orientData
          (decide ((self.pixtoradec 0 0).1 <
            (self.pixtoradec ((wWidth self : Int) - 1)
              ((wHeight self : Int) - 1)).1))
          (decide ((self.pixtoradec 0 0).2 <
            (self.pixtoradec ((wWidth self : Int) - 1)
              ((wHeight self : Int) - 1)).2))
          image = (od, ra, dec) →
      x0 = pyround ((self.radectopix ra dec).1) →
      y0 = pyround ((self.radectopix ra dec).2) →
      0 ≤ x0 → 0 ≤ y0 →
      y0.toNat + matH od ≤ matH self.data →
      x0.toNat + matW od ≤ matW self.data →
      rect self.data (matW self.data) → rect od (matW od) →
      getBlock (mosaic_inline self [image]).1.data y0.toNat x0.toNat
        (matH od) (matW od) = od) := by
  constructor
  · intro ra_l dec_l image
    unfold orientData
    by_cases h1 : ra_l ≠ decide ((image.pixtoradec 0 0).1 <
        (image.pixtoradec ((wWidth image : Int) - 1)
          ((wHeight image : Int) - 1)).1) <;>
      by_cases h2 : dec_l ≠ decide ((image.pixtoradec 0 0).2 <
          (image.pixtoradec ((wWidth image : Int) - 1)
            ((wHeight image : Int) - 1)).2) <;>
      simp [h1, h2]
  · intro self image od ra dec x0 y0 hod hx0 hy0 hx0n hy0n hyfit hxfit hrs hod_rect
    unfold mosaic_inline mosaic_inline_step
    simp only [List.foldl_cons, List.foldl_nil, hod]
    rw [← hx0, ← hy0,
      placeBlock_ok_of_fit self.data od y0 x0 hy0n hx0n hyfit hxfit]
    exact getBlock_setBlock self.data od y0.toNat x0.toNat (matW od)
      (matW self.data) hrs hxfit (by simpa [matH] using hyfit) hod_rect

/-- C7 witness: placing the mirrored image `cImgM` (its WCS reverses RA)
into the identity-oriented canvas `cSelfM` writes exactly the horizontally
flipped copy of its pixel array at the projected origin (0,0). -/
theorem mosaic_inline_orientation_witness :
    getBlock (mosaic_inline cSelfM [cImgM]).1.data 0 0 2 3 =
      fliplr cImgM.data :=
  mosaic_inline_orientation.2 cSelfM cImgM (fliplr cImgM.data) 0 0 0 0
    (by norm_num +decide [orientData, cSelfM, cImgM, wWidth, wHeight, matW,
      matH, List.replicate])
    (by norm_num [cSelfM, pyround])
    (by norm_num [cSelfM, pyround])
    (by norm_num) (by norm_num)
    (by norm_num +decide [cSelfM, cImgM, fliplr, matH, matW, List.replicate])
    (by norm_num +decide [cSelfM, cImgM, fliplr, matH, matW, List.replicate])
    (by decide) (by decide)

/-- C8: inline placement is best-effort per image.  First part: every call
emits exactly one `modified` notification, attached to the completed
result after all images are processed.  Second part: when the slice copy
of an image fails, the step catches the error, logs the image name with
the cause, and leaves the canvas untouched.  Third part: on the concrete
batch [c8a, c8b, c8c] whose middle image projects out of bounds, the
failing image is skipped, the previously placed block (c8a) is intact, the
remaining image (c8c) is still placed, the log holds exactly the failed
image's entry, and one notification is emitted. -/
theorem mosaic_inline_best_effort :
    (∀ (self : WImage) (l : List WImage), (mosaic_inline self l).2.2 = 1) ∧
    (∀ (self : WImage) (ra_l dec_l : Bool) (nd : Mat) (log : List String)
        (image : WImage) (e : String),
      placeBlock nd
          (pyround ((self.radectopix (orientData ra_l dec_l image).2.1
            (orientData ra_l dec_l image).2.2).2))
          (pyround ((self.radectopix (orientData ra_l dec_l image).2.1
            (orientData ra_l dec_l image).2.2).1))
          (orientData ra_l dec_l image).1 = Except.error e →
      mosaic_inline_step self ra_l dec_l (nd, log) image =
        (nd, log ++ [image.name ++ ": " ++ e])) ∧
    (mosaic_inline cS8 [c8a, c8b, c8c]).1.data = c8mat ∧
    (mosaic_inline cS8 [c8a, c8b, c8c]).2.1 =
      ["b: could not broadcast input array"] ∧
    (mosaic_inline cS8 [c8a, c8b, c8c]).2.2 = 1 ∧
    getBlock c8mat 0 0 2 2 = c8a.data ∧
    getBlock c8mat 0 4 2 2 = c8c.data := by
  refine ⟨fun self l => rfl, ?_, ?_, ?_, rfl,
    by norm_num +decide [getBlock, c8mat, c8a],
    by norm_num +decide [getBlock, c8mat, c8c]⟩
  · intro self ra_l dec_l nd log image e h
    unfold mosaic_inline_step
    simp only []
    rw [h]
  · norm_num +decide [mosaic_inline, mosaic_inline_step, orientData,
      placeBlock, setBlock, setRowSeg, fliplr, flipud, pyround, zeros,
      cS8, c8a, c8b, c8c, c8mat, wWidth, wHeight, matH, matW,
      List.replicate, Int.toNat_ofNat]
  · norm_num +decide [mosaic_inline, mosaic_inline_step, orientData,
      placeBlock, setBlock, setRowSeg, fliplr, flipud, pyround, zeros,
      cS8, c8a, c8b, c8c, wWidth, wHeight, matH, matW,
      List.replicate, Int.toNat_ofNat]

/-- C8 witness: a concrete failing placement is caught, logged with the
image name and cause, and leaves the canvas argument unchanged. -/
theorem mosaic_inline_best_effort_witness :
    mosaic_inline_step cS8 true true (List.replicate 4 (List.replicate 8 0), [])
      c8b =
      (List.replicate 4 (List.replicate 8 0),
        ["b" ++ ": " ++ "could not broadcast input array"]) :=
  mosaic_inline_best_effort.2.1 cS8 true true
    (List.replicate 4 (List.replicate 8 0)) [] c8b
    "could not broadcast input array"
    (by norm_num +decide [orientData, placeBlock, cS8, c8b, pyround, fliplr,
      flipud, wWidth, wHeight, matH, matW, List.replicate, Int.toNat_ofNat])

/-! ### Claim theorems about the keyword operations -/

/-- C2 (counterexample): starting from an image whose wcs is current,
a single-keyword `set_keyword` mutates the header but does not re-derive
the wcs, leaving it stale — refuting the claim that every
metadata-mutating entry point re-derives the wcs. -/
theorem set_keyword_leaves_wcs_stale :
    wcsCurrent c2img ∧
    (set_keyword c2img "CRPIX2" (HVal.num 5) true).map
      (fun i => decide (wcsCurrent i)) = Except.ok false := by
  decide

/-- C2 (amended): the bulk-keyword update and the metadata update do
re-derive the wcs from the updated header (the freshness invariant holds
after them), but the single-keyword `set_keyword` never touches the wcs. -/
theorem wcs_rederived_by_bulk_updates (img : AImg) (kvs : List (String × HVal)) :
    wcsCurrent (update_keywords img kvs) ∧
    wcsCurrent (update_metadata img kvs) ∧
    ∀ (k : String) (v : HVal) (c : Bool) (r : AImg),
      set_keyword img k v c = Except.ok r → r.wcsHeader = img.wcsHeader := by
  refine ⟨?_, ?_, ?_⟩
  · unfold update_keywords get_header wcsCurrent
    cases himg : img.meta.header <;> simp [himg]
  · unfold update_metadata get_header wcsCurrent
    cases himg : img.meta.header <;> simp [himg]
  · intro k v c r hr
    unfold set_keyword at hr
    cases hgh : get_header img c with
    | error e => rw [hgh] at hr; simp at hr
    | ok p =>
      obtain ⟨kwds, img1⟩ := p
      have himg1 : img1.wcsHeader = img.wcsHeader := by
        unfold get_header at hgh
        cases himg : img.meta.header <;> rw [himg] at hgh
        · cases c
          · simp at hgh
          · simp at hgh
            rw [← hgh.2]
        · simp at hgh
          rw [← hgh.2]
      rw [hgh] at hr
      cases c
      · simp at hr
        cases hh : hget kwds (pyUpper k)
        · rw [hh] at hr; simp at hr
        · rw [hh] at hr
          simp at hr
          rw [← hr]
          exact himg1
      · simp at hr
        rw [← hr]
        exact himg1

/-- C2 witness: the invariant after a concrete bulk update, and the
unchanged wcs after a concrete single-keyword set. -/
theorem wcs_rederived_by_bulk_updates_witness :
    (update_keywords c2img [("CRPIX2", HVal.num 5)]).wcsHeader =
      (update_keywords c2img [("CRPIX2", HVal.num 5)]).meta.header ∧
    ({ meta := { header := some [("CRPIX1", HVal.num 1),
                                 ("CRPIX2", HVal.num 5)],
                 scalars := [] },
       wcsHeader := some [("CRPIX1", HVal.num 1)] } : AImg).wcsHeader =
      c2img.wcsHeader :=
  ⟨(wcs_rederived_by_bulk_updates c2img [("CRPIX2", HVal.num 5)]).1,
   (wcs_rederived_by_bulk_updates c2img [("CRPIX2", HVal.num 5)]).2.2
     "CRPIX2" (HVal.num 5) true _ (by decide)⟩

/-- C3 (counterexample): after setting a keyword under the case variant
`crpix1`, reading it back under the variants `crpix1` and `Crpix1` signals
a missing keyword; only the uppercased form `CRPIX1` finds the value —
refuting the claim that any other case variant of the keyword reads the
value back. -/
theorem get_keyword_case_sensitive_cex :
    (set_keyword c3img "crpix1" (HVal.num 7) true).map
      (fun i => ((get_keyword i "crpix1").1, (get_keyword i "Crpix1").1,
                 (get_keyword i "CRPIX1").1)) =
      Except.ok (none, none, some (HVal.num 7)) := by
  decide

/-- C3 (amended): keywords are normalized to uppercase when written, and
lookups are literal, so after setting keyword `k` (under any case variant)
reading back the uppercased form returns the value just written. -/
theorem set_then_get_uppercase (img : AImg) (k : String) (v : HVal) :
    (set_keyword img k v true).map (fun i => (get_keyword i (pyUpper k)).1) =
      Except.ok (some v) := by
  unfold set_keyword
  cases hgh : get_header img true with
  | error e =>
    unfold get_header at hgh
    cases himg : img.meta.header <;> rw [himg] at hgh <;> simp at hgh
  | ok p =>
    obtain ⟨kwds, img1⟩ := p
    simp [get_keyword, get_header, Except.map, hget_hset_self]

/-- C10: a non-creating `set_keyword` on an image whose header lacks the
uppercased keyword — or which has no header at all — raises `KeyError`
(carrying the missing key) and, the failure happening on the read of the
previous value before any write, produces no mutated state: the header
mapping is left completely unchanged. -/
theorem set_keyword_nocreate_missing_raises (img : AImg) (k : String) (v : HVal)
    (h : match img.meta.header with
         | none => True
         | some hd => hget hd (pyUpper k) = none) :
    set_keyword img k v false =
      Except.error (match img.meta.header with
                    | none => "header"
                    | some _ => pyUpper k) := by
  unfold set_keyword get_header
  cases himg : img.meta.header with
  | none => simp
  | some hd =>
    rw [himg] at h
    simp [h]

/-- C10 witness: the non-creating set of an absent keyword on a concrete
image raises `KeyError('CRPIX1')`. -/
theorem set_keyword_nocreate_missing_raises_witness :
    set_keyword c10img "crpix1" (HVal.num 9) false = Except.error "CRPIX1" :=
  set_keyword_nocreate_missing_raises c10img "crpix1" (HVal.num 9)
    (show hget [("NAXIS1", HVal.num 100)] (pyUpper "crpix1") = none by decide)

/-! ### Spherical geometry: helper lemmas -/

theorem cos_ninety_neg : Real.cos 90 < 0 := by
  have key : (90 : ℝ) - 28 * Real.pi + (14 : ℤ) * (2 * Real.pi) = 90 := by
    push_cast
    ring
  have h := Real.cos_add_int_mul_two_pi (90 - 28 * Real.pi) 14
  rw [key] at h
  rw [h]
  apply Real.cos_neg_of_pi_div_two_lt_of_lt
  · have := Real.pi_lt_d2
    linarith
  · have := Real.pi_gt_d2
    linarith

theorem cos_two_pi_div_three : Real.cos (2 * Real.pi / 3) = -(1 / 2) := by
  have h : (2 : ℝ) * Real.pi / 3 = Real.pi - Real.pi / 3 := by ring
  rw [h, Real.cos_pi_sub, Real.cos_pi_div_three]

theorem dispos_self (ra dec : ℝ) :
    dispos ra dec ra dec = ((if dec = 90 then (180 : ℝ) else 0), 0) := by
  unfold dispos
  have h0 : ra / (180 / Real.pi) - ra / (180 / Real.pi) = 0 := sub_self _
  have h1 : Real.sin (dec / (180 / Real.pi)) * Real.sin (dec / (180 / Real.pi)) +
      Real.cos (dec / (180 / Real.pi)) * Real.cos (dec / (180 / Real.pi)) *
        Real.cos (ra / (180 / Real.pi) - ra / (180 / Real.pi)) = 1 := by
    rw [h0, Real.cos_zero, mul_one]
    have := Real.sin_sq_add_cos_sq (dec / (180 / Real.pi))
    nlinarith [this]
  simp only [h1, Real.arccos_one]
  norm_num

theorem dispos_snd_at : (dispos 0 0 120 0).2 = 7200 := by
  show Real.arccos (Real.sin (0 / (180 / Real.pi)) * Real.sin (0 / (180 / Real.pi)) +
      Real.cos (0 / (180 / Real.pi)) * Real.cos (0 / (180 / Real.pi)) *
      Real.cos ((120 : ℝ) / (180 / Real.pi) - 0 / (180 / Real.pi))) *
      (180 / Real.pi) * 60 = 7200
  have h23 : (120 : ℝ) / (180 / Real.pi) = 2 * Real.pi / 3 := by
    field_simp
    ring
  rw [zero_div, Real.sin_zero, Real.cos_zero, sub_zero, h23]
  have harg : (0 : ℝ) * 0 + 1 * 1 * Real.cos (2 * Real.pi / 3) =
      Real.cos (2 * Real.pi / 3) := by ring
  rw [harg, Real.arccos_cos (by positivity) (by linarith [Real.pi_pos])]
  field_simp
  ring

theorem deltaStars1_at : deltaStarsRaDecDeg1 0 0 120 0 = 120 := by
  unfold deltaStarsRaDecDeg1 arcsecToDeg
  rw [dispos_snd_at]
  norm_num

theorem deltaStars2_at_ne : deltaStarsRaDecDeg2 0 0 120 0 ≠ 120 := by
  unfold deltaStarsRaDecDeg2 radians degrees
  intro h
  simp only [zero_mul, sub_zero, zero_sub, Real.cos_neg] at h
  have h23 : (120 : ℝ) * (Real.pi / 180) = 2 * Real.pi / 3 := by ring
  rw [h23, cos_two_pi_div_three] at h
  set c := Real.cos 90 with hc
  set s := Real.sin 90 with hs
  have hsq : s ^ 2 + c ^ 2 = 1 := Real.sin_sq_add_cos_sq 90
  have harg1 : (-1 : ℝ) ≤ c * c + s * s * -(1 / 2) := by
    nlinarith [hsq, sq_nonneg c, sq_nonneg s, pow_two c, pow_two s]
  have harg2 : c * c + s * s * -(1 / 2) ≤ 1 := by
    nlinarith [hsq, sq_nonneg c, sq_nonneg s, pow_two c, pow_two s]
  set A := Real.arccos (c * c + s * s * -(1 / 2)) with hA
  have harc : A = 2 * Real.pi / 3 := by
    have hpi := Real.pi_ne_zero
    field_simp at h
    linarith
  have hcos := Real.cos_arccos harg1 harg2
  rw [← hA, harc, cos_two_pi_div_three] at hcos
  have hcneg : c < 0 := cos_ninety_neg
  nlinarith [hsq, hcos, mul_pos_of_neg_of_neg hcneg hcneg, pow_two c, pow_two s]

/-! ### Claim theorems about the spherical geometry -/

/-- C1: the two angular-separation implementations are not equivalent as
exact-real functions: at the well-conditioned (equatorial, non-polar,
non-antipodal) pair (0,0),(120,0) the canonical `deltaStarsRaDecDeg1`
returns exactly 120 degrees while the alternate `deltaStarsRaDecDeg2`
(whose co-latitudes are formed by subtracting a radian value from the
degree literal 90.0) does not. -/
theorem separation_implementations_disagree :
    deltaStarsRaDecDeg1 0 0 120 0 = 120 ∧ deltaStarsRaDecDeg2 0 0 120 0 ≠ 120 :=
  ⟨deltaStars1_at, deltaStars2_at_ne⟩

/-- C5 (counterexample): with both points equal to the north celestial pole
(ra 0, dec 90), `dispos` returns bearing 180, not bearing 0 — the final
pole override rewrites the bearing. -/
theorem dispos_same_point_pole_cex : dispos 0 90 0 90 ≠ (0, 0) := by
  rw [dispos_self 0 90]
  norm_num

/-- C5 (amended): for every sky point, `dispos` applied to two equal points
returns distance 0 arcmin, and bearing 0 degrees except at dec = 90 where
the pole special case yields bearing 180 (at dec = -90 the special case
yields 0, agreeing with the generic branch). -/
theorem dispos_same_point (ra dec : ℝ) :
    dispos ra dec ra dec = ((if dec = 90 then (180 : ℝ) else 0), 0) :=
  dispos_self ra dec

/-- C9: a canvas receiving a `modified` notification from a subcanvas
re-emits it if and only if the originating canvas is not the canvas
itself; in particular a notification originating from the canvas itself is
never re-propagated, so a self-referential rebroadcast terminates
immediately. -/
theorem subcanvas_no_self_rebroadcast (self canvas : CanvasId) (whence : Nat) :
    (subcanvas_updated_cb self canvas whence ≠ [] ↔ canvas ≠ self) ∧
    subcanvas_updated_cb self self whence = [] := by
  constructor
  · by_cases h : canvas = self <;> simp [subcanvas_updated_cb, h]
  · simp [subcanvas_updated_cb]

end Ginga
